import Mathlib

/-!
Verification development for the simple propositional-logic proof checker
(`src/main.py`): a Hilbert-style checker over implicational propositional
logic with a contradiction constant.  The Python source is embedded
shallowly: Python exceptions are modelled with `Except`, Python `None`
results with `Option`, Python `int` with `Int`, and Python sequence
indexing (including its negative-index wrap-around) with `pyGet`.
-/

namespace Main

/-- Unrecoverable Python exceptions that the source can raise while a proof
is being verified: `IndexError` from out-of-range sequence indexing
(`axioms[inf.index]`, `res[inf.implication]`, `res[inf.premise]`) and
`TypeError` from invoking `meta_replace` through a class object instead of
an instance (see `Term.ContCls`). -/
inductive PyError where
  | indexError
  | typeError
deriving DecidableEq

/-- Values of the Python `Term` hierarchy as they occur in the running
program.  `Var`, `Cont`, `Imply` and `MetaVar` are instances of the four
frozen dataclasses of `src/main.py` (identifier codes are the Python
character codes, e.g. 97 for the variable `a`, 65 for the metavariable
`A`).  The extra constructor `ContCls` models the *class object* `Cont`
itself: in `parse` (line 71 of `src/main.py`) the branch for `!` executes
`return (Cont, els)` — without parentheses — so the value standing for a
parsed contradiction is the class, not an instance `Cont()`.  The class
object compares equal only to itself (dataclass `__eq__` falls back to
identity across distinct classes), is not an `Imply`, and calling
`meta_replace` through it fails, which `Term.meta_replace` reflects. -/
inductive Term where
  | Var (value : Int)
  | Cont
  | Imply (premise : Term) (conclusion : Term)
  | MetaVar (value : Int)
  | ContCls
deriving DecidableEq

/-- Embedding of `Term.meta_replace` (`src/main.py` lines 11-26).  On the
dataclass instances it follows the `isinstance` chain of the source:
`Var` and `Cont` are returned unchanged, `Imply` recurses into both parts,
a `MetaVar` is replaced when its code matches.  On the class object
`ContCls` the Python call `Cont.meta_replace(value, term)` binds `value`
to `self` and `term` to `value`, leaving the parameter `term` unsupplied,
so it raises `TypeError` before the method body runs; that is the
`.error .typeError` case. -/
def Term.meta_replace : Term → Int → Term → Except PyError Term
  | .Var v, _, _ => .ok (.Var v)
  | .Cont, _, _ => .ok .Cont
  | .Imply p c, value, term => do
    let a ← p.meta_replace value term
    let b ← c.meta_replace value term
    pure (.Imply a b)
  | .MetaVar v, value, term => if v = value then .ok term else .ok (.MetaVar v)
  | .ContCls, _, _ => .error .typeError

/-- Pure structural substitution: what `meta_replace` computes on the
branches that do not raise.  Used to state lemmas about `meta_replace`. -/
def Term.substP : Term → Int → Term → Term
  | .Var v, _, _ => .Var v
  | .Cont, _, _ => .Cont
  | .Imply p c, value, term => .Imply (p.substP value term) (c.substP value term)
  | .MetaVar v, value, term => if v = value then term else .MetaVar v
  | .ContCls, _, _ => .ContCls

/-- Whether the class object `Cont` (see `Term.ContCls`) occurs somewhere
in a value.  A value with `hasContCls = false` is a well-typed `Term` in
the sense of the Python type annotations: it is built from dataclass
instances only. -/
def Term.hasContCls : Term → Bool
  | .Imply p c => p.hasContCls || c.hasContCls
  | .ContCls => true
  | _ => false

/-- Whether `MetaVar id` occurs somewhere in the term. -/
def Term.hasMeta : Term → Int → Bool
  | .MetaVar v, id => v = id
  | .Imply p c, id => p.hasMeta id || c.hasMeta id
  | _, _ => false

/-- Whether the term is free of metavariables. -/
def Term.metaFree : Term → Bool
  | .MetaVar _ => false
  | .Imply p c => p.metaFree && c.metaFree
  | _ => true

/-- Characterisation: `meta_replace` raises exactly when the traversed term contains the
class object `Cont`, and otherwise computes the pure substitution. -/
theorem meta_replace_eq (t : Term) (v : Int) (r : Term) :
    t.meta_replace v r =
      if t.hasContCls then .error .typeError else .ok (t.substP v r) := by
  induction t with
  | Var w => rfl
  | Cont => rfl
  | ContCls => rfl
  | MetaVar w =>
    simp only [Term.meta_replace, Term.substP, Term.hasContCls, if_false, Bool.false_eq_true]
    split <;> rfl
  | Imply p c ihp ihc =>
    simp only [Term.meta_replace, Term.substP, Term.hasContCls, ihp, ihc]
    by_cases hp : p.hasContCls <;> by_cases hc : c.hasContCls <;>
      simp [hp, hc, Bind.bind, Except.bind, Pure.pure, Except.pure]

/-- Substituting for a metavariable that does not occur leaves the term
unchanged. -/
theorem substP_not_hasMeta (t : Term) (v : Int) (r : Term)
    (h : t.hasMeta v = false) : t.substP v r = t := by
  induction t with
  | Var w => rfl
  | Cont => rfl
  | ContCls => rfl
  | MetaVar w =>
    simp only [Term.hasMeta, decide_eq_false_iff_not] at h
    simp [Term.substP, h]
  | Imply p c ihp ihc =>
    simp only [Term.hasMeta, Bool.or_eq_false_iff] at h
    simp [Term.substP, ihp h.1, ihc h.2]

/-- A metavariable-free term mentions no metavariable at all. -/
theorem hasMeta_of_metaFree (t : Term) (h : t.metaFree = true) (v : Int) :
    t.hasMeta v = false := by
  induction t with
  | Var w => rfl
  | Cont => rfl
  | ContCls => rfl
  | MetaVar w => simp [Term.metaFree] at h
  | Imply p c ihp ihc =>
    simp only [Term.metaFree, Bool.and_eq_true] at h
    simp [Term.hasMeta, ihp h.1, ihc h.2]

/-- Substitution introduces no `ContCls` when neither the subject nor the
replacement contains one. -/
theorem hasContCls_substP (t : Term) (v : Int) (r : Term)
    (ht : t.hasContCls = false) (hr : r.hasContCls = false) :
    (t.substP v r).hasContCls = false := by
  induction t with
  | Var w => rfl
  | Cont => rfl
  | ContCls => simp [Term.hasContCls] at ht
  | MetaVar w =>
    simp only [Term.substP]
    split
    · exact hr
    · rfl
  | Imply p c ihp ihc =>
    simp only [Term.hasContCls, Bool.or_eq_false_iff] at ht
    simp [Term.substP, Term.hasContCls, ihp ht.1, ihc ht.2]

/-- Embedding of the inner helper `chew` of `parse` (`src/main.py` lines
68-79), over a character list.  A `fuel` argument makes the recursion
structural; since `chew` consumes at least one character before every
recursive call, any fuel larger than the input length computes the same
result as the Python recursion.  Reading `term[0]` of an empty string
raises `IndexError`, modelled as `none`.  Note the `!` branch: the source
returns the class object `Cont` (no parentheses), hence `ContCls`. -/
def chew : Nat → List Char → Option (Term × List Char)
  | 0, _ => none
  | _ + 1, [] => none
  | fuel + 1, init :: els =>
    if init = '!' then some (.ContCls, els)
    else if init.isAlpha && init.isLower then some (.Var (init.toNat : Int), els)
    else if init.isAlpha && init.isUpper then some (.MetaVar (init.toNat : Int), els)
    else
      match chew fuel els with
      | none => none
      | some (a, els1) =>
        match chew fuel els1 with
        | none => none
        | some (b, els2) => some (.Imply a b, els2)

/-- Embedding of `parse` (`src/main.py` lines 60-83): run `chew` on the
whole input and fail (`ValueError`, modelled as `none`) when characters
remain. -/
def parse (s : List Char) : Option Term :=
  match chew (s.length + 1) s with
  | some (t, []) => some t
  | _ => none

/-- The axiom table of `src/main.py` lines 86-91, written out as the terms
the four `parse` calls produce (65, 66, 67 are the codes of the
metavariables `A`, `B`, `C`).  Axiom 3 contains `ContCls` because `parse`
puts the class object there. -/
def axioms : List Term :=
  [ .Imply (.MetaVar 65) (.Imply (.MetaVar 66) (.MetaVar 65)),
    .Imply (.Imply (.MetaVar 65) (.Imply (.MetaVar 66) (.MetaVar 67)))
      (.Imply (.Imply (.MetaVar 65) (.MetaVar 66)) (.Imply (.MetaVar 65) (.MetaVar 67))),
    .Imply (.Imply (.Imply (.MetaVar 65) (.MetaVar 66)) (.MetaVar 65)) (.MetaVar 65),
    .Imply .ContCls (.MetaVar 65) ]

/-- The explicit table `axioms` agrees with the four `parse` calls of the
source (`parse(">A>BA")`, `parse(">>A>BC>>AB>AC")`, `parse(">>>ABAA")`,
`parse(">!A")`). -/
theorem axioms_eq_parse :
    [ parse ['>', 'A', '>', 'B', 'A'],
      parse ['>', '>', 'A', '>', 'B', 'C', '>', '>', 'A', 'B', '>', 'A', 'C'],
      parse ['>', '>', '>', 'A', 'B', 'A', 'A'],
      parse ['>', '!', 'A'] ] = axioms.map some := by
  decide

/-- Python sequence indexing `l[i]` for `int` indices: a negative index
counts from the end; an index that is still out of range after the
wrap-around raises `IndexError`, modelled as `none`. -/
def pyGet {α : Type} (l : List α) (i : Int) : Option α :=
  let j : Int := if i < 0 then i + (l.length : Int) else i
  if 0 ≤ j then l.get? j.toNat else none

/-- The inference-step union of `src/main.py`: `AxiomI` (lines 97-101)
holds a table index and three supplied terms, `ModI` (lines 103-107)
holds the two referenced line numbers. -/
inductive Infer where
  | AxiomI (index : Int) (terms : Term × Term × Term)
  | ModI (implication : Int) (premise : Int)
deriving DecidableEq

/-- The `Proof` record of `src/main.py` lines 110-114. -/
structure Proof where
  goal : Term
  inferences : List Infer
deriving DecidableEq

/-- The body of the `AxiomI` branch of `Proof.statements` (`src/main.py`
lines 120-125): look the index up in the axiom table (Python tuple
indexing, so negative indices wrap and out-of-range ones raise
`IndexError`), then substitute the metavariables `A` (65), `B` (66),
`C` (67) in that order. -/
def instAxiom (index : Int) (terms : Term × Term × Term) : Except PyError Term :=
  match pyGet axioms index with
  | none => .error .indexError
  | some t0 =>
    match t0.meta_replace 65 terms.1 with
    | .error e => .error e
    | .ok r1 =>
      match r1.meta_replace 66 terms.2.1 with
      | .error e => .error e
      | .ok r2 =>
        match r2.meta_replace 67 terms.2.2 with
        | .error e => .error e
        | .ok r3 => .ok r3

/-- The loop of `Proof.statements` (`src/main.py` lines 118-139) as a
recursion over the remaining steps, carrying the accumulated list `res`.
`Except.ok none` is the Python `return None` (an invalid step),
`Except.ok (some res)` the final `return res`, and `Except.error` an
uncaught exception.  The `ModI` branch mirrors the source exactly: first
the `premise >= len(res) or implication >= len(res)` test (which negative
indices pass), then the two indexings `res[implication]`,
`res[premise]` in that order, then the `isinstance(a, Imply)` test, then
the `a.premise != b` test, and finally `res.append(a.conclusion)`. -/
def statementsGo : List Infer → List Term → Except PyError (Option (List Term))
  | [], res => .ok (some res)
  | .AxiomI index terms :: rest, res =>
    match instAxiom index terms with
    | .error e => .error e
    | .ok ress => statementsGo rest (res ++ [ress])
  | .ModI implication premise :: rest, res =>
    if (res.length : Int) ≤ premise ∨ (res.length : Int) ≤ implication then
      .ok none
    else
      match pyGet res implication with
      | none => .error .indexError
      | some a =>
        match pyGet res premise with
        | none => .error .indexError
        | some b =>
          match a with
          | .Imply ap ac =>
            if ap = b then statementsGo rest (res ++ [ac]) else .ok none
          | _ => .ok none

/-- A successful Python indexing returns an element of the list. -/
theorem pyGet_mem {α : Type} {l : List α} {i : Int} {a : α}
    (h : pyGet l i = some a) : a ∈ l := by
  have key : ∀ (n : Nat), l.get? n = some a → a ∈ l := by
    intro n hn
    rw [List.get?_eq_getElem?] at hn
    obtain ⟨hlt, he⟩ := List.getElem?_eq_some.mp hn
    exact he ▸ List.getElem_mem hlt
  simp only [pyGet] at h
  split at h <;> split at h <;>
    first
    | exact key _ h
    | exact absurd h (by simp)

/-- A successful Python indexing implies the index is below the length
(negative indices are trivially below it). -/
theorem pyGet_lt {α : Type} {l : List α} {i : Int} {a : α}
    (h : pyGet l i = some a) : i < (l.length : Int) := by
  simp only [pyGet] at h
  by_cases hi : i < 0
  · have : (0 : Int) ≤ l.length := Int.ofNat_nonneg _
    omega
  · rw [if_neg hi] at h
    split at h
    · rw [List.get?_eq_getElem?] at h
      have hlt := (List.getElem?_eq_some.mp h).1
      omega
    · exact absurd h (by simp)

/-- Python indexing of the empty list always raises. -/
theorem pyGet_nil {α : Type} (i : Int) : pyGet ([] : List α) i = none := by
  simp only [pyGet]
  split <;> simp

/-- Full characterisation of one axiom-instantiation step: once the table
lookup succeeds, the three sequential substitutions either hit the class
object `Cont` somewhere in the traversed term (raising `TypeError`) or
compute the pure A-then-B-then-C substitution chain. -/
theorem instAxiom_eq (index : Int) (t0 : Term)
    (hget : pyGet axioms index = some t0) (terms : Term × Term × Term) :
    instAxiom index terms =
      if t0.hasContCls then .error .typeError
      else if (t0.substP 65 terms.1).hasContCls then .error .typeError
      else if ((t0.substP 65 terms.1).substP 66 terms.2.1).hasContCls then
        .error .typeError
      else .ok (((t0.substP 65 terms.1).substP 66 terms.2.1).substP 67 terms.2.2) := by
  unfold instAxiom
  rw [hget]
  simp only [meta_replace_eq]
  by_cases h0 : t0.hasContCls
  · simp [h0]
  · simp only [h0, if_false, Bool.false_eq_true]
    by_cases h1 : (t0.substP 65 terms.1).hasContCls
    · simp [h1]
    · simp only [h1, if_false, Bool.false_eq_true]
      by_cases h2 : ((t0.substP 65 terms.1).substP 66 terms.2.1).hasContCls
      · simp [h2]
      · simp only [h2, if_false, Bool.false_eq_true]

/-- Embedding of `Proof.statements` (`src/main.py` lines 116-139): replay all steps
starting from the empty list. -/
def Proof.statements (p : Proof) : Except PyError (Option (List Term)) :=
  statementsGo p.inferences []

/-- Embedding of `Proof.verify` (`src/main.py` lines 140-145): `if not res: return
False` treats both `None` and the empty list as falsy; otherwise the
result is `self.goal in res`, membership by structural equality. -/
def Proof.verify (p : Proof) : Except PyError Bool :=
  match p.statements with
  | .error e => .error e
  | .ok none => .ok false
  | .ok (some res) => if res.isEmpty then .ok false else .ok (decide (p.goal ∈ res))

/-- No term equals an implication having it as the premise (structural
terms are finite). -/
theorem ne_imply_self (p c : Term) : p ≠ .Imply p c := by
  intro h
  have hs := congrArg sizeOf h
  simp only [Term.Imply.sizeOf_spec] at hs
  omega

/-- Inversion: a run that starts with an axiom step and ends in a final
trace goes through a successful instantiation. -/
theorem statementsGo_ax_ok {index : Int} {terms : Term × Term × Term}
    {rest : List Infer} {res out : List Term}
    (h : statementsGo (.AxiomI index terms :: rest) res = .ok (some out)) :
    ∃ r, instAxiom index terms = .ok r ∧
      statementsGo rest (res ++ [r]) = .ok (some out) := by
  simp only [statementsGo] at h
  split at h
  · exact absurd h (by simp)
  · rename_i r heq
    exact ⟨r, heq, h⟩

/-- Inversion: a run that starts with a modus-ponens step and ends in a
final trace resolves both line references, finds an implication whose
premise matches, and appends its conclusion. -/
theorem statementsGo_mod_ok {implication premise : Int} {rest : List Infer}
    {res out : List Term}
    (h : statementsGo (.ModI implication premise :: rest) res = .ok (some out)) :
    ∃ ap ac b, pyGet res implication = some (.Imply ap ac) ∧
      pyGet res premise = some b ∧ ap = b ∧
      statementsGo rest (res ++ [ac]) = .ok (some out) := by
  simp only [statementsGo] at h
  split at h
  · exact absurd h (by simp)
  · split at h
    · exact absurd h (by simp)
    · rename_i a heqI
      split at h
      · exact absurd h (by simp)
      · rename_i b heqP
        split at h
        · rename_i ap ac
          split at h
          · rename_i hab
            exact ⟨ap, ac, b, heqI, heqP, hab, h⟩
          · exact absurd h (by simp)
        · exact absurd h (by simp)

/-- Inversion of `Proof.verify` returning `True`: all steps processed and
the goal occurs in the final trace. -/
theorem verify_ok_true {p : Proof} (h : p.verify = .ok true) :
    ∃ l, p.statements = .ok (some l) ∧ p.goal ∈ l := by
  unfold Proof.verify at h
  split at h
  · exact absurd h (by simp)
  · exact absurd h (by simp)
  · rename_i l heq
    split at h
    · exact absurd h (by simp)
    · exact ⟨l, heq, of_decide_eq_true (Except.ok.inj h)⟩

/-- The table lookup for index 0. -/
theorem pyGet_axioms_zero :
    pyGet axioms 0 =
      some (.Imply (.MetaVar 65) (.Imply (.MetaVar 66) (.MetaVar 65))) := rfl

/-- The table lookup for index 1. -/
theorem pyGet_axioms_one :
    pyGet axioms 1 =
      some (.Imply (.Imply (.MetaVar 65) (.Imply (.MetaVar 66) (.MetaVar 67)))
        (.Imply (.Imply (.MetaVar 65) (.MetaVar 66))
          (.Imply (.MetaVar 65) (.MetaVar 67)))) := rfl

/-- Whatever terms are supplied, a successful instantiation of axiom 0
has the schema's shape `x → (y → x)`. -/
theorem instAxiom_zero_shape {terms : Term × Term × Term} {r : Term}
    (h : instAxiom 0 terms = .ok r) : ∃ x y, r = .Imply x (.Imply y x) := by
  rw [instAxiom_eq 0 _ pyGet_axioms_zero] at h
  split at h
  · exact absurd h (by simp)
  · split at h
    · exact absurd h (by simp)
    · split at h
      · exact absurd h (by simp)
      · refine ⟨(terms.1.substP 66 terms.2.1).substP 67 terms.2.2,
          terms.2.1.substP 67 terms.2.2, ?_⟩
        rw [← Except.ok.inj h]
        simp [Term.substP]

/-- Whatever terms are supplied, a successful instantiation of axiom 1
has the schema's shape `(x → (y → z)) → ((x → y) → (x → z))`. -/
theorem instAxiom_one_shape {terms : Term × Term × Term} {r : Term}
    (h : instAxiom 1 terms = .ok r) :
    ∃ x y z, r = .Imply (.Imply x (.Imply y z))
      (.Imply (.Imply x y) (.Imply x z)) := by
  rw [instAxiom_eq 1 _ pyGet_axioms_one] at h
  split at h
  · exact absurd h (by simp)
  · split at h
    · exact absurd h (by simp)
    · split at h
      · exact absurd h (by simp)
      · refine ⟨(terms.1.substP 66 terms.2.1).substP 67 terms.2.2,
          terms.2.1.substP 67 terms.2.2, terms.2.2, ?_⟩
        rw [← Except.ok.inj h]
        simp [Term.substP]

/-- Claim C1: the claim says verification never raises an unrecoverable fault
for a well-typed `Proof`.  The code violates it: an `AxiomI` step with
table index 4 raises `IndexError` (unchecked tuple indexing,
`src/main.py` line 121), and an `AxiomI` step with index 3 raises
`TypeError` (axiom 3 contains the class object `Cont` that `parse`
returned, so `meta_replace` cannot be invoked through it).  This theorem
evaluates the engine at both failing inputs. -/
theorem c1_crash_on_welltyped_proof :
    (Proof.mk (.Var 97) [.AxiomI 4 (.Var 97, .Var 97, .Var 97)]).verify
        = .error .indexError
    ∧ (Proof.mk (.Imply .Cont (.Var 97))
        [.AxiomI 3 (.Var 97, .Var 97, .Var 97)]).verify
        = .error .typeError := ⟨rfl, rfl⟩

/-- Claim C2: the claim says an `axiomIndex` outside {0,1,2,3} fails with the
non-fatal error `UnknownAxiom`.  The code has no such check: index 4
raises an unrecoverable `IndexError`, while index -2 — also outside
{0,1,2,3} — silently instantiates axiom 2 through Python's negative
tuple indexing.  This theorem evaluates both behaviours. -/
theorem c2_no_unknownaxiom_handling :
    (Proof.mk (.Var 97) [.AxiomI 4 (.Var 97, .Var 97, .Var 97)]).statements
        = .error .indexError
    ∧ (Proof.mk (.Var 97) [.AxiomI (-2) (.Var 97, .Var 98, .Var 99)]).statements
        = .ok (some
            [.Imply (.Imply (.Imply (.Var 97) (.Var 98)) (.Var 97)) (.Var 97)])
    := ⟨rfl, rfl⟩

/-- Claim C3: the claim says a single step `AxiomInstantiation{3, (t, u, v)}`
appends `Contradiction → t` and verifies as Derived against that goal.
The code instead raises `TypeError` on every instantiation of axiom 3:
`parse(">!A")` stored the class object `Cont` (the source returns `Cont`,
not `Cont()`) inside the axiom, and the recursive `meta_replace` call
through that class object fails.  This theorem evaluates the engine at
the claim's input with `t = Var 97`. -/
theorem c3_exfalso_instantiation_crashes :
    (Proof.mk (.Imply .Cont (.Var 97))
      [.AxiomI 3 (.Var 97, .Var 97, .Var 97)]).statements
        = .error .typeError := rfl

/-- Claim C4: when every step processes without failure (`statements` returns a
final trace), verification returns `True` exactly when the goal occurs
anywhere in the trace, and `False` otherwise. -/
theorem c4_derived_iff_goal_in_trace (p : Proof) (l : List Term)
    (h : p.statements = .ok (some l)) :
    p.verify = .ok (decide (p.goal ∈ l)) := by
  unfold Proof.verify
  rw [h]
  cases l with
  | nil => simp
  | cons x xs => simp [List.isEmpty]

/-- Witness for C4 at a concrete proof: one instantiation of axiom 0 and
the matching goal give a trace the goal occurs in, hence `Derived`. -/
theorem c4_derived_iff_goal_in_trace_witness :
    (Proof.mk (.Imply (.Var 97) (.Imply (.Var 98) (.Var 97)))
        [.AxiomI 0 (.Var 97, .Var 98, .Var 97)]).verify = .ok true :=
  (c4_derived_iff_goal_in_trace
    (Proof.mk (.Imply (.Var 97) (.Imply (.Var 98) (.Var 97)))
      [.AxiomI 0 (.Var 97, .Var 98, .Var 97)])
    [.Imply (.Var 97) (.Imply (.Var 98) (.Var 97))] rfl).trans rfl

/-- Claim C5: a modus-ponens step whose two line references both resolve to
trace entries behaves as follows: if the implication line is not an
`Imply`, the step fails (the engine returns `None`); otherwise if its
premise differs structurally from the premise line, the step fails;
otherwise the conclusion is appended and the run continues. -/
theorem c5_modusponens_step_semantics (rest : List Infer) (res : List Term)
    (implication premise : Int) (a b : Term)
    (ha : pyGet res implication = some a) (hb : pyGet res premise = some b) :
    statementsGo (.ModI implication premise :: rest) res =
      match a with
      | .Imply ap ac =>
        if ap = b then statementsGo rest (res ++ [ac]) else .ok none
      | _ => .ok none := by
  have hia := pyGet_lt ha
  have hpb := pyGet_lt hb
  simp only [statementsGo]
  rw [if_neg (by omega)]
  simp only [ha, hb]
  cases a <;> rfl

/-- Witness for C5 at a concrete trace: modus ponens on `a → b` and `a`
appends `b`. -/
theorem c5_modusponens_step_semantics_witness :
    statementsGo [.ModI 0 1] [.Imply (.Var 97) (.Var 98), .Var 97]
      = .ok (some [.Imply (.Var 97) (.Var 98), .Var 97, .Var 98]) :=
  (c5_modusponens_step_semantics [] [.Imply (.Var 97) (.Var 98), .Var 97]
    0 1 (.Imply (.Var 97) (.Var 98)) (.Var 97) rfl rfl).trans rfl

/-- Claim C6: a modus-ponens step whose implication or premise reference is at
least the current trace length makes the step fail non-fatally (the
engine returns `None`, so the whole verification fails). -/
theorem c6_dangling_reference_fails (implication premise : Int)
    (rest : List Infer) (res : List Term)
    (h : (res.length : Int) ≤ implication ∨ (res.length : Int) ≤ premise) :
    statementsGo (.ModI implication premise :: rest) res = .ok none := by
  simp only [statementsGo]
  rw [if_pos h.symm]

/-- Witness for C6: the claim's particular case — a proof whose only step
is `ModusPonens{0, 0}` fails at step 0 and verification returns `False`. -/
theorem c6_dangling_reference_fails_witness :
    (Proof.mk (.Var 97) [.ModI 0 0]).verify = .ok false := by
  have h := c6_dangling_reference_fails 0 0 [] [] (Or.inl (by decide))
  unfold Proof.verify Proof.statements
  rw [h]

/-- Claim C7: for metavariable-free genuine terms `X`, `Y`, `Z` (built from the
dataclass instances, i.e. free of the class object `Cont`), the single
step `AxiomInstantiation{0, (X, Y, Z)}` yields the trace `[X → (Y → X)]`
— substitution applied for A, then B, then C — and the proof with goal
`X → (Y → X)` verifies as Derived. -/
theorem c7_axiom0_instantiation (X Y Z : Term)
    (hX : X.hasContCls = false) (hY : Y.hasContCls = false)
    (_hZ : Z.hasContCls = false) (mX : X.metaFree = true)
    (mY : Y.metaFree = true) (_mZ : Z.metaFree = true) :
    (Proof.mk (.Imply X (.Imply Y X)) [.AxiomI 0 (X, Y, Z)]).statements
        = .ok (some [.Imply X (.Imply Y X)])
    ∧ (Proof.mk (.Imply X (.Imply Y X)) [.AxiomI 0 (X, Y, Z)]).verify
        = .ok true := by
  have hXm : ∀ (v : Int) (r : Term), X.substP v r = X := fun v r =>
    substP_not_hasMeta _ _ _ (hasMeta_of_metaFree _ mX v)
  have hYm : ∀ (v : Int) (r : Term), Y.substP v r = Y := fun v r =>
    substP_not_hasMeta _ _ _ (hasMeta_of_metaFree _ mY v)
  have hinst : instAxiom 0 (X, Y, Z) = .ok (.Imply X (.Imply Y X)) := by
    rw [instAxiom_eq 0 _ pyGet_axioms_zero]
    simp [Term.substP, Term.hasContCls, hX, hY, hXm, hYm]
  have hst : (Proof.mk (.Imply X (.Imply Y X))
      [.AxiomI 0 (X, Y, Z)]).statements = .ok (some [.Imply X (.Imply Y X)]) := by
    simp only [Proof.statements, statementsGo, hinst, List.nil_append]
  refine ⟨hst, ?_⟩
  unfold Proof.verify
  rw [hst]
  simp

/-- Witness for C7 at `X = Var 97`, `Y = Var 98`, `Z = Var 99`. -/
theorem c7_axiom0_instantiation_witness :
    (Proof.mk (.Imply (.Var 97) (.Imply (.Var 98) (.Var 97)))
      [.AxiomI 0 (.Var 97, .Var 98, .Var 99)]).verify = .ok true :=
  (c7_axiom0_instantiation (.Var 97) (.Var 98) (.Var 99)
    rfl rfl rfl rfl rfl rfl).2

/-- Claim C8: substituting for a metavariable that occurs nowhere in a genuine
term (built from the dataclass instances) returns the term unchanged. -/
theorem c8_substitute_absent_meta_identity (t : Term) (v : Int) (r : Term)
    (hcc : t.hasContCls = false) (h : t.hasMeta v = false) :
    t.meta_replace v r = .ok t := by
  rw [meta_replace_eq, if_neg (by simp [hcc]), substP_not_hasMeta t v r h]

/-- Witness for C8 at the term `a → Contradiction` (instance) and the
metavariable 65 that does not occur in it. -/
theorem c8_substitute_absent_meta_identity_witness :
    (Term.Imply (.Var 97) .Cont).meta_replace 65 (.Var 98)
      = .ok (.Imply (.Var 97) .Cont) :=
  c8_substitute_absent_meta_identity _ _ _ rfl rfl

/-- Claim C10: supplying a term that itself contains a metavariable is captured
by the later substitutions: `AxiomInstantiation{0, (MetaVariable(B), Y,
Z)}` with metavariable-free `Y` first yields `B → (B → B)` and the
subsequent B-substitution rewrites all three occurrences, appending
`Y → (Y → Y)` to the trace. -/
theorem c10_substitution_capture (g Y Z : Term)
    (hY : Y.hasContCls = false) (mY : Y.metaFree = true) :
    (Proof.mk g [.AxiomI 0 (.MetaVar 66, Y, Z)]).statements
      = .ok (some [.Imply Y (.Imply Y Y)]) := by
  have hYm : ∀ (v : Int) (r : Term), Y.substP v r = Y := fun v r =>
    substP_not_hasMeta _ _ _ (hasMeta_of_metaFree _ mY v)
  have hinst : instAxiom 0 (.MetaVar 66, Y, Z) = .ok (.Imply Y (.Imply Y Y)) := by
    rw [instAxiom_eq 0 _ pyGet_axioms_zero]
    simp [Term.substP, Term.hasContCls, hY, hYm]
  simp only [Proof.statements, statementsGo, hinst, List.nil_append]

/-- Witness for C10 at `Y = Var 98`, `Z = Var 99`. -/
theorem c10_substitution_capture_witness :
    (Proof.mk (.Var 97) [.AxiomI 0 (.MetaVar 66, .Var 98, .Var 99)]).statements
      = .ok (some [.Imply (.Var 98) (.Imply (.Var 98) (.Var 98))]) :=
  c10_substitution_capture (.Var 97) (.Var 98) (.Var 99) rfl rfl

/-- Step predicate for the `a → a` claim: axiom instantiations may only
use table indices 0 and 1; modus ponens is unrestricted. -/
def usesAx01 : Infer → Bool
  | .AxiomI k _ => decide (k = 0 ∨ k = 1)
  | .ModI _ _ => true

/-- An instantiation of axiom 0 or 1 is an implication. -/
theorem axInst_isImply {k : Int} {t : Term × Term × Term} {e : Term}
    (hk : k = 0 ∨ k = 1) (h : instAxiom k t = .ok e) :
    ∃ u v, e = .Imply u v := by
  rcases hk with rfl | rfl
  · obtain ⟨x, y, he⟩ := instAxiom_zero_shape h
    exact ⟨x, .Imply y x, he⟩
  · obtain ⟨x, y, z, he⟩ := instAxiom_one_shape h
    exact ⟨_, _, he⟩

/-- An instantiation of axiom 0 or 1 is never a formula `v → v` with `v`
a variable: the schemas force a compound premise or conclusion. -/
theorem axInst_ne_selfimp {k : Int} {t : Term × Term × Term} {e : Term}
    (hk : k = 0 ∨ k = 1) (h : instAxiom k t = .ok e) (w : Int) :
    e ≠ .Imply (.Var w) (.Var w) := by
  rcases hk with rfl | rfl
  · obtain ⟨x, y, he⟩ := instAxiom_zero_shape h
    rw [he]
    intro hc
    injection hc with h1 h2
    exact Term.noConfusion h2
  · obtain ⟨x, y, z, he⟩ := instAxiom_one_shape h
    rw [he]
    intro hc
    injection hc with h1 h2
    exact Term.noConfusion h1

/-- The conclusion appended by a modus-ponens step whose implication line
is an instantiation of axiom 0 or 1 and whose premise slot is itself an
implication is never a formula `v → v`. -/
theorem axInst_mp_conclusion_ne {k : Int} {t : Term × Term × Term}
    {e ap ac : Term} (hk : k = 0 ∨ k = 1) (h : instAxiom k t = .ok e)
    (he : e = .Imply ap ac) (hap : ∃ u v, ap = .Imply u v) (w : Int) :
    ac ≠ .Imply (.Var w) (.Var w) := by
  rcases hk with rfl | rfl
  · obtain ⟨x, y, hxy⟩ := instAxiom_zero_shape h
    rw [hxy] at he
    injection he with h1 h2
    intro hc
    rw [hc] at h2
    injection h2 with h3 h4
    obtain ⟨u, v, hap⟩ := hap
    rw [← h1, h4] at hap
    exact Term.noConfusion hap
  · obtain ⟨x, y, z, hxyz⟩ := instAxiom_one_shape h
    rw [hxyz] at he
    injection he with h1 h2
    intro hc
    rw [hc] at h2
    injection h2 with h3 h4
    exact Term.noConfusion h3

/-- Claim C9 (amended): there is a proof of `a → a` over axioms 0 and 1 plus
modus ponens that verifies as Derived — but it takes five steps (two
instantiations of axiom 0, one of axiom 1 and two modus-ponens steps),
not three. -/
theorem c9_amended_five_step_proof :
    ∃ p : Proof, p.goal = .Imply (.Var 97) (.Var 97) ∧
      p.inferences.length = 5 ∧ p.inferences.all usesAx01 = true ∧
      p.verify = .ok true := by
  refine ⟨Proof.mk (.Imply (.Var 97) (.Var 97))
    [ .AxiomI 1 (.Var 97, .Imply (.Var 98) (.Var 97), .Var 97),
      .AxiomI 0 (.Var 97, .Imply (.Var 98) (.Var 97), .Var 97),
      .ModI 0 1,
      .AxiomI 0 (.Var 97, .Var 98, .Var 97),
      .ModI 2 3 ], rfl, rfl, rfl, rfl⟩

/-- Claim C9 (counterexample): the claim as stated is false — no proof with
exactly three steps whose axiom instantiations use only axioms 0 and 1
(plus modus ponens) verifies as Derived with goal `a → a`, whatever
terms its instantiations supply. -/
theorem c9_counterexample_no_three_step_proof :
    (∃ p : Proof, p.goal = .Imply (.Var 97) (.Var 97) ∧
      p.inferences.length = 3 ∧ p.inferences.all usesAx01 = true ∧
      p.verify = .ok true) = False := by
  refine eq_false ?_
  rintro ⟨p, hgoal, hlen, hall, hv⟩
  obtain ⟨i0, i1, i2, hinf⟩ := List.length_eq_three.mp hlen
  obtain ⟨l, hst, hmem⟩ := verify_ok_true hv
  rw [hgoal] at hmem
  unfold Proof.statements at hst
  rw [hinf] at hst
  rw [hinf] at hall
  simp only [List.all_cons, List.all_nil, Bool.and_eq_true, Bool.and_true] at hall
  obtain ⟨h0, h1, h2⟩ := hall
  cases i0 with
  | ModI a0 b0 =>
    simp only [statementsGo] at hst
    split at hst
    · exact absurd hst (by simp)
    · simp [pyGet_nil] at hst
  | AxiomI k0 t0 =>
    have hk0 : k0 = 0 ∨ k0 = 1 := by simpa [usesAx01] using h0
    obtain ⟨e0, hi0, hst⟩ := statementsGo_ax_ok hst
    rw [List.nil_append] at hst
    cases i1 with
    | ModI a1 b1 =>
      obtain ⟨ap, ac, b, hgA, hgB, hab, _⟩ := statementsGo_mod_ok hst
      have haE : Term.Imply ap ac = e0 := List.mem_singleton.mp (pyGet_mem hgA)
      have hbE : b = e0 := List.mem_singleton.mp (pyGet_mem hgB)
      rw [hab, hbE] at haE
      exact ne_imply_self e0 ac haE.symm
    | AxiomI k1 t1 =>
      have hk1 : k1 = 0 ∨ k1 = 1 := by simpa [usesAx01] using h1
      obtain ⟨e1, hi1, hst⟩ := statementsGo_ax_ok hst
      rw [List.singleton_append] at hst
      cases i2 with
      | AxiomI k2 t2 =>
        have hk2 : k2 = 0 ∨ k2 = 1 := by simpa [usesAx01] using h2
        obtain ⟨e2, hi2, hst⟩ := statementsGo_ax_ok hst
        have hl : l = [e0, e1] ++ [e2] := by
          simp only [statementsGo] at hst
          exact (Option.some.inj (Except.ok.inj hst)).symm
        rw [hl] at hmem
        simp only [List.mem_append, List.mem_cons, List.mem_singleton,
          List.not_mem_nil, or_false] at hmem
        rcases hmem with (h | h) | h
        · exact axInst_ne_selfimp hk0 hi0 97 h.symm
        · exact axInst_ne_selfimp hk1 hi1 97 h.symm
        · exact axInst_ne_selfimp hk2 hi2 97 h.symm
      | ModI a2 b2 =>
        obtain ⟨ap, ac, b, hgA, hgB, hab, hst⟩ := statementsGo_mod_ok hst
        have hl : l = [e0, e1] ++ [ac] := by
          simp only [statementsGo] at hst
          exact (Option.some.inj (Except.ok.inj hst)).symm
        have haE : Term.Imply ap ac = e0 ∨ Term.Imply ap ac = e1 := by
          have hm := pyGet_mem hgA
          simpa using hm
        have hbE : b = e0 ∨ b = e1 := by
          have hm := pyGet_mem hgB
          simpa using hm
        have hapI : ∃ u v, ap = .Imply u v := by
          rcases hbE with h | h
          · rw [hab, h]; exact axInst_isImply hk0 hi0
          · rw [hab, h]; exact axInst_isImply hk1 hi1
        rw [hl] at hmem
        simp only [List.mem_append, List.mem_cons, List.mem_singleton,
          List.not_mem_nil, or_false] at hmem
        rcases hmem with (h | h) | h
        · exact axInst_ne_selfimp hk0 hi0 97 h.symm
        · exact axInst_ne_selfimp hk1 hi1 97 h.symm
        · rcases haE with hE | hE
          · exact axInst_mp_conclusion_ne hk0 hi0 hE.symm hapI 97 h.symm
          · exact axInst_mp_conclusion_ne hk1 hi1 hE.symm hapI 97 h.symm

end Main
